import Mathlib

/-!
Shallow embedding of the SSD backbone in
src/assignment4/SSD/ssd/modeling/backbones/basic.py (class BasicModel).

The Python code only configures shapes: six sequential stages, each a chain of
Conv2d / ReLU / MaxPool2d modules, followed by per-stage shape assertions and a
count assertion. We embed the shape semantics of that code: a tensor is
represented by its shape (batch, channels, height, width); each framework
module becomes a function from shapes to shapes that can fail the way the
framework fails (a runtime error when channel counts mismatch or a spatial
size would be non-positive); Python list indexing becomes a fallible access
raising an index error; the two assert statements become distinct assertion
errors (shape mismatch at line 189, count mismatch at line 192).
-/

/-- Shape of a rank-4 tensor: batch, channels, height, width. -/
structure TensorShape where
  batch : Nat
  channels : Nat
  height : Nat
  width : Nat
deriving DecidableEq, Repr

/-- The kinds of Python-level failures the forward path can produce.
shapeAssert and countAssert are the two assert statements in
BasicModel.forward; indexError is an out-of-bounds list access; runtimeError
is a failure raised inside the delegated framework kernels (Conv2d or
MaxPool2d rejecting the input). -/
inductive PyErr where
  | shapeAssert
  | countAssert
  | indexError
  | runtimeError
deriving DecidableEq, Repr

/-- One framework module as it occurs inside a stage: a 2d convolution with
in and out channel counts, square kernel, symmetric padding and stride; the
ReLU activation; or a square max pooling with kernel and stride. -/
inductive Op where
  | conv (inC outC kernel pad stride : Nat)
  | relu
  | maxpool (kernel stride : Nat)
deriving DecidableEq, Repr

/-- Shape semantics of one module, with the framework failure modes:
Conv2d requires the input channel count to equal in_channels and the padded
input to be at least the kernel (otherwise the output would be empty), and
maps spatial size n to (n + 2 pad - kernel) / stride + 1; ReLU is the
identity on shapes; MaxPool2d requires the input to be at least the kernel
and maps n to (n - kernel) / stride + 1. -/
def Op.apply : Op → TensorShape → Except PyErr TensorShape
  | .conv inC outC k p s, t =>
    if t.channels = inC then
      if k ≤ t.height + 2 * p ∧ k ≤ t.width + 2 * p then
        .ok ⟨t.batch, outC, (t.height + 2 * p - k) / s + 1, (t.width + 2 * p - k) / s + 1⟩
      else .error .runtimeError
    else .error .runtimeError
  | .relu, t => .ok t
  | .maxpool k s, t =>
    if k ≤ t.height ∧ k ≤ t.width then
      .ok ⟨t.batch, t.channels, (t.height - k) / s + 1, (t.width - k) / s + 1⟩
    else .error .runtimeError

/-- The spatial arithmetic of one module alone: the integer output-size
formula applied to one spatial dimension (height and width transform by the
same formula in every configured module). -/
def Op.spatial : Op → Nat → Nat
  | .conv _ _ k p s, n => (n + 2 * p - k) / s + 1
  | .relu, n => n
  | .maxpool k s, n => (n - k) / s + 1

/-- Running a Sequential container: apply each module in order, propagating
the first failure. -/
def runLayer : List Op → TensorShape → Except PyErr TensorShape
  | [], t => .ok t
  | op :: rest, t =>
    match Op.apply op t with
    | .error e => .error e
    | .ok t2 => runLayer rest t2

/-- The loop in BasicModel.forward (lines 180-183): feed the activation
through each stage, collecting every intermediate activation as a feature. -/
def runLayers : List (List Op) → TensorShape → Except PyErr (List TensorShape)
  | [], _ => .ok []
  | l :: rest, t =>
    match runLayer l t with
    | .error e => .error e
    | .ok t2 =>
      match runLayers rest t2 with
      | .error e => .error e
      | .ok feats => .ok (t2 :: feats)

/-- Python list indexing with a non-negative index: out of bounds raises
IndexError. -/
def getIdx {α : Type} (l : List α) (i : Nat) : Except PyErr α :=
  match l.get? i with
  | some a => .ok a
  | none => .error .indexError

/-- Stage 1 (self.layer_1, lines 32-68): three stride-1 convolutions with
two max pools interleaved, then a stride-2 convolution to output_channels[0],
each convolution followed by ReLU. -/
def layer_1 (image_channels c0 : Nat) : List Op :=
  [ .conv image_channels 32 3 1 1, .relu, .maxpool 2 2,
    .conv 32 64 3 1 1, .relu, .maxpool 2 2,
    .conv 64 64 3 1 1, .relu,
    .conv 64 c0 3 1 2, .relu ]

/-- Stage 2 (self.layer_2, lines 69-85). -/
def layer_2 (c0 c1 : Nat) : List Op :=
  [ .conv c0 128 3 1 1, .relu, .conv 128 c1 3 1 2, .relu ]

/-- Stage 3 (self.layer_3, lines 87-103). -/
def layer_3 (c1 c2 : Nat) : List Op :=
  [ .conv c1 256 3 1 1, .relu, .conv 256 c2 3 1 2, .relu ]

/-- Stage 4 (self.layer_4, lines 104-120). -/
def layer_4 (c2 c3 : Nat) : List Op :=
  [ .conv c2 128 3 1 1, .relu, .conv 128 c3 3 1 2, .relu ]

/-- Stage 5 (self.layer_5, lines 121-137). -/
def layer_5 (c3 c4 : Nat) : List Op :=
  [ .conv c3 128 3 1 1, .relu, .conv 128 c4 3 1 2, .relu ]

/-- Stage 6 (self.layer_6, lines 138-154): the final convolution has
padding 0 and stride 1. -/
def layer_6 (c4 c5 : Nat) : List Op :=
  [ .conv c4 128 3 1 1, .relu, .conv 128 c5 3 0 1, .relu ]

/-- The list self.layers (lines 156-163), given the six channel values read
from output_channels. -/
def buildLayers (ic c0 c1 c2 c3 c4 c5 : Nat) : List (List Op) :=
  [ layer_1 ic c0, layer_2 c0 c1, layer_3 c1 c2,
    layer_4 c2 c3, layer_5 c3 c4, layer_6 c4 c5 ]

/-- The state of a constructed BasicModel: the two stored configuration
lists (self.out_channels, self.output_feature_shape) and self.layers. -/
structure BasicModel where
  out_channels : List Nat
  output_feature_shape : List (Nat × Nat)
  layers : List (List Op)
deriving DecidableEq, Repr

/-- BasicModel.__init__: stores the two configuration lists and builds the
six stages, reading output_channels at indices 0 through 5 (an out-of-bounds
read raises IndexError, as in Python; the accesses occur in increasing order
of the smallest index used, matching the source order of first use). -/
def mkBasicModel (output_channels : List Nat) (image_channels : Nat)
    (output_feature_sizes : List (Nat × Nat)) : Except PyErr BasicModel := do
  let c0 ← getIdx output_channels 0
  let c1 ← getIdx output_channels 1
  let c2 ← getIdx output_channels 2
  let c3 ← getIdx output_channels 3
  let c4 ← getIdx output_channels 4
  let c5 ← getIdx output_channels 5
  pure { out_channels := output_channels,
         output_feature_shape := output_feature_sizes,
         layers := buildLayers image_channels c0 c1 c2 c3 c4 c5 }

/-- One iteration of the assertion loop (lines 185-191): read
out_channels[idx] and output_feature_shape[idx] (IndexError when out of
bounds), then assert that the feature shape with the batch dimension dropped
equals (out_channel, h, w). -/
def checkFeature (m : BasicModel) (idx : Nat) (f : TensorShape) : Except PyErr Unit :=
  match getIdx m.out_channels idx with
  | .error e => .error e
  | .ok oc =>
    match getIdx m.output_feature_shape idx with
    | .error e => .error e
    | .ok hw =>
      if (f.channels, f.height, f.width) = (oc, hw.1, hw.2) then .ok ()
      else .error .shapeAssert

/-- The assertion loop over enumerate(out_features), starting at index idx. -/
def checkLoop (m : BasicModel) : List TensorShape → Nat → Except PyErr Unit
  | [], _ => .ok ()
  | f :: rest, idx =>
    match checkFeature m idx f with
    | .error e => .error e
    | .ok _ => checkLoop m rest (idx + 1)

/-- BasicModel.forward (lines 165-195): run the six stages collecting one
feature per stage, run the shape-assertion loop, assert the count of
features equals the length of output_feature_shape, and return the features. -/
def forward (m : BasicModel) (x : TensorShape) : Except PyErr (List TensorShape) :=
  match runLayers m.layers x with
  | .error e => .error e
  | .ok feats =>
    match checkLoop m feats 0 with
    | .error e => .error e
    | .ok _ =>
      if feats.length = m.output_feature_shape.length then .ok feats
      else .error .countAssert

/-- Construct the model from a configuration and run forward on one input. -/
def runOn (output_channels : List Nat) (image_channels : Nat)
    (output_feature_sizes : List (Nat × Nat)) (x : TensorShape) :
    Except PyErr (List TensorShape) :=
  match mkBasicModel output_channels image_channels output_feature_sizes with
  | .error e => .error e
  | .ok m => forward m x

/-- The spatial size after a whole stage: fold the per-module integer
output-size arithmetic over the modules of the stage. -/
def layerSpatial (l : List Op) (n : Nat) : Nat :=
  l.foldl (fun a op => Op.spatial op a) n

/-- The per-stage spatial sizes produced by the stage list from a given
input spatial size: one entry per stage, each feeding the next. -/
def stageSpatials : List (List Op) → Nat → List Nat
  | [], _ => []
  | l :: rest, n =>
    let n2 := layerSpatial l n
    n2 :: stageSpatials rest n2

/-- The documented standard per-stage spatial sizes. -/
def stdSizes : List (Nat × Nat) :=
  [(38, 38), (19, 19), (10, 10), (5, 5), (3, 3), (1, 1)]

/-- A concrete model built with the standard configuration used by the
repository (output channels 128, 256, 128, 128, 64, 64 and 3 image
channels). -/
def stdModel : BasicModel :=
  { out_channels := [128, 256, 128, 128, 64, 64],
    output_feature_shape := stdSizes,
    layers := buildLayers 3 128 256 128 128 64 64 }

/-- The features forward produces from a batch-1 standard 300 by 300 input
under the standard configuration. -/
def stdFeats : List TensorShape :=
  [ ⟨1, 128, 38, 38⟩, ⟨1, 256, 19, 19⟩, ⟨1, 128, 10, 10⟩,
    ⟨1, 128, 5, 5⟩, ⟨1, 64, 3, 3⟩, ⟨1, 64, 1, 1⟩ ]

/-- The in_channels of the first convolution of a stage, when one exists. -/
def firstConvIn : List Op → Option Nat
  | [] => none
  | .conv i _ _ _ _ :: _ => some i
  | _ :: rest => firstConvIn rest

/-- The out_channels of the last convolution of a stage, when one exists. -/
def lastConvOut (l : List Op) : Option Nat :=
  l.foldl (fun acc op => match op with | .conv _ o _ _ _ => some o | _ => acc) none

instance {ε α : Type} [DecidableEq ε] [DecidableEq α] : DecidableEq (Except ε α) := fun x y =>
  match x, y with
  | .ok a, .ok b =>
    match decEq a b with
    | isTrue h => isTrue (by rw [h])
    | isFalse h => isFalse (fun hc => h (Except.ok.inj hc))
  | .error a, .error b =>
    match decEq a b with
    | isTrue h => isTrue (by rw [h])
    | isFalse h => isFalse (fun hc => h (Except.error.inj hc))
  | .ok _, .error _ => isFalse (fun hc => Except.noConfusion hc)
  | .error _, .ok _ => isFalse (fun hc => Except.noConfusion hc)

/-- The error component of a result, when it is an error. -/
def errOf {α : Type} : Except PyErr α → Option PyErr
  | .ok _ => none
  | .error e => some e

/-- True when a run ended in something other than an IndexError. -/
def notIndexError {α : Type} : Except PyErr α → Bool
  | .error .indexError => false
  | _ => true

/-- True when a run neither returned normally nor failed the count
assertion: it stopped before the count assertion was evaluated. -/
def stopsBeforeCountAssert {α : Type} : Except PyErr α → Bool
  | .ok _ => false
  | .error .countAssert => false
  | .error _ => true

/-- State-passing version of the assertion loop: the module object is
threaded through every attribute read so that mutation, if the code had
any, would be visible. -/
def checkLoopSt (s : BasicModel) : List TensorShape → Nat → Except PyErr Unit × BasicModel
  | [], _ => (.ok (), s)
  | f :: rest, idx =>
    match checkFeature s idx f with
    | .error e => (.error e, s)
    | .ok _ => checkLoopSt s rest (idx + 1)

/-- State-passing version of BasicModel.forward: every read of self goes
through the threaded state, and the final state is returned alongside the
result (also on the failing paths). -/
def forwardSt (m : BasicModel) (x : TensorShape) :
    Except PyErr (List TensorShape) × BasicModel :=
  match runLayers m.layers x with
  | .error e => (.error e, m)
  | .ok feats =>
    match checkLoopSt m feats 0 with
    | (.error e, s2) => (.error e, s2)
    | (.ok _, s2) =>
      if feats.length = s2.output_feature_shape.length then (.ok feats, s2)
      else (.error .countAssert, s2)

/-! Helper lemmas shared by the claim theorems. -/

theorem runLayers_length (ls : List (List Op)) :
    ∀ (x : TensorShape) (feats : List TensorShape),
      runLayers ls x = .ok feats → feats.length = ls.length := by
  induction ls with
  | nil =>
    intro x feats h
    simp only [runLayers] at h
    injection h with h2
    subst h2
    rfl
  | cons l rest ih =>
    intro x feats h
    rw [runLayers] at h
    cases hl : runLayer l x with
    | error e => simp only [hl] at h; exact Except.noConfusion h
    | ok t2 =>
      simp only [hl] at h
      cases hr : runLayers rest t2 with
      | error e => simp only [hr] at h; exact Except.noConfusion h
      | ok feats2 =>
        simp only [hr] at h
        injection h with h2
        subst h2
        simp only [List.length_cons]
        rw [ih t2 feats2 hr]

theorem Op.apply_error (op : Op) (t : TensorShape) (e : PyErr)
    (h : Op.apply op t = .error e) : e = .runtimeError := by
  cases op with
  | conv inC outC k p s =>
    simp only [Op.apply] at h
    by_cases hc : t.channels = inC
    · rw [if_pos hc] at h
      by_cases hk : k ≤ t.height + 2 * p ∧ k ≤ t.width + 2 * p
      · rw [if_pos hk] at h; exact Except.noConfusion h
      · rw [if_neg hk] at h; injection h with h2; exact h2.symm
    · rw [if_neg hc] at h; injection h with h2; exact h2.symm
  | relu =>
    simp only [Op.apply] at h
    exact Except.noConfusion h
  | maxpool k s =>
    simp only [Op.apply] at h
    by_cases hk : k ≤ t.height ∧ k ≤ t.width
    · rw [if_pos hk] at h; exact Except.noConfusion h
    · rw [if_neg hk] at h; injection h with h2; exact h2.symm

theorem runLayer_error (l : List Op) :
    ∀ (t : TensorShape) (e : PyErr), runLayer l t = .error e → e = .runtimeError := by
  induction l with
  | nil => intro t e h; exact Except.noConfusion h
  | cons op rest ih =>
    intro t e h
    rw [runLayer] at h
    cases happ : Op.apply op t with
    | error e2 =>
      simp only [happ] at h
      injection h with h2
      rw [← h2]
      exact Op.apply_error op t e2 happ
    | ok t2 =>
      simp only [happ] at h
      exact ih t2 e h

theorem runLayers_error (ls : List (List Op)) :
    ∀ (t : TensorShape) (e : PyErr), runLayers ls t = .error e → e = .runtimeError := by
  induction ls with
  | nil => intro t e h; exact Except.noConfusion h
  | cons l rest ih =>
    intro t e h
    rw [runLayers] at h
    cases hl : runLayer l t with
    | error e2 =>
      simp only [hl] at h
      injection h with h2
      rw [← h2]
      exact runLayer_error l t e2 hl
    | ok t2 =>
      simp only [hl] at h
      cases hr : runLayers rest t2 with
      | error e2 =>
        simp only [hr] at h
        injection h with h2
        rw [← h2]
        exact ih t2 e2 hr
      | ok feats => simp only [hr] at h; exact Except.noConfusion h

theorem forward_ok_parts (m : BasicModel) (x : TensorShape) (feats : List TensorShape)
    (h : forward m x = .ok feats) :
    runLayers m.layers x = .ok feats ∧ checkLoop m feats 0 = .ok () ∧
      feats.length = m.output_feature_shape.length := by
  rw [forward] at h
  cases hrun : runLayers m.layers x with
  | error e => simp only [hrun] at h; exact Except.noConfusion h
  | ok feats2 =>
    simp only [hrun] at h
    cases hchk : checkLoop m feats2 0 with
    | error e => simp only [hchk] at h; exact Except.noConfusion h
    | ok u =>
      simp only [hchk] at h
      by_cases hlen : feats2.length = m.output_feature_shape.length
      · rw [if_pos hlen] at h
        injection h with h2
        subst h2
        exact ⟨rfl, by rw [hchk], hlen⟩
      · rw [if_neg hlen] at h
        exact Except.noConfusion h

theorem checkFeature_ok (m : BasicModel) (idx : Nat) (f : TensorShape)
    (h : checkFeature m idx f = .ok ()) :
    m.out_channels.get? idx = some f.channels ∧
      m.output_feature_shape.get? idx = some (f.height, f.width) := by
  rw [checkFeature] at h
  cases hoc : getIdx m.out_channels idx with
  | error e => simp only [hoc] at h; exact Except.noConfusion h
  | ok oc =>
    simp only [hoc] at h
    cases hhw : getIdx m.output_feature_shape idx with
    | error e => simp only [hhw] at h; exact Except.noConfusion h
    | ok hw =>
      simp only [hhw] at h
      by_cases heq : (f.channels, f.height, f.width) = (oc, hw.1, hw.2)
      · rw [Prod.mk.injEq, Prod.mk.injEq] at heq
        obtain ⟨h1, h2, h3⟩ := heq
        rw [getIdx] at hoc hhw
        constructor
        · cases hg : m.out_channels.get? idx with
          | none => rw [hg] at hoc; exact Except.noConfusion hoc
          | some a =>
            rw [hg] at hoc
            injection hoc with ha
            rw [ha, h1]
        · cases hg : m.output_feature_shape.get? idx with
          | none => rw [hg] at hhw; exact Except.noConfusion hhw
          | some a =>
            rw [hg] at hhw
            injection hhw with ha
            rw [ha, h2, h3]
      · rw [if_neg heq] at h
        exact Except.noConfusion h

theorem checkLoop_ok_get (m : BasicModel) :
    ∀ (feats : List TensorShape) (idx : Nat), checkLoop m feats idx = .ok () →
      ∀ (i : Nat) (f : TensorShape), feats.get? i = some f →
        m.out_channels.get? (idx + i) = some f.channels ∧
          m.output_feature_shape.get? (idx + i) = some (f.height, f.width) := by
  intro feats
  induction feats with
  | nil =>
    intro idx h i f hf
    exact Option.noConfusion hf
  | cons g rest ih =>
    intro idx h i f hf
    rw [checkLoop] at h
    cases hcf : checkFeature m idx g with
    | error e => simp only [hcf] at h; exact Except.noConfusion h
    | ok u =>
      simp only [hcf] at h
      cases i with
      | zero =>
        simp only [List.get?] at hf
        injection hf with hf2
        subst hf2
        simpa using checkFeature_ok m idx g hcf
      | succ j =>
        simp only [List.get?] at hf
        have h2 := ih (idx + 1) h j f hf
        have harith : idx + 1 + j = idx + (j + 1) := by omega
        rw [harith] at h2
        exact h2

theorem checkLoop_error_kinds (m : BasicModel) :
    ∀ (feats : List TensorShape) (idx : Nat) (e : PyErr),
      checkLoop m feats idx = .error e → e = .shapeAssert ∨ e = .indexError := by
  intro feats
  induction feats with
  | nil => intro idx e h; exact Except.noConfusion h
  | cons g rest ih =>
    intro idx e h
    rw [checkLoop] at h
    cases hcf : checkFeature m idx g with
    | error e2 =>
      simp only [hcf] at h
      injection h with h2
      subst h2
      rw [checkFeature] at hcf
      cases hoc : getIdx m.out_channels idx with
      | error e3 =>
        simp only [hoc] at hcf
        injection hcf with h3
        rw [getIdx] at hoc
        cases hg : m.out_channels.get? idx with
        | none =>
          rw [hg] at hoc
          injection hoc with h4
          right
          rw [← h3, ← h4]
        | some a => rw [hg] at hoc; exact Except.noConfusion hoc
      | ok oc =>
        simp only [hoc] at hcf
        cases hhw : getIdx m.output_feature_shape idx with
        | error e3 =>
          simp only [hhw] at hcf
          injection hcf with h3
          rw [getIdx] at hhw
          cases hg : m.output_feature_shape.get? idx with
          | none =>
            rw [hg] at hhw
            injection hhw with h4
            right
            rw [← h3, ← h4]
          | some a => rw [hg] at hhw; exact Except.noConfusion hhw
        | ok hw =>
          simp only [hhw] at hcf
          by_cases heq : (g.channels, g.height, g.width) = (oc, hw.1, hw.2)
          · rw [if_pos heq] at hcf; exact Except.noConfusion hcf
          · rw [if_neg heq] at hcf
            injection hcf with h3
            left
            rw [← h3]
    | ok u =>
      simp only [hcf] at h
      exact ih (idx + 1) e h

theorem checkLoop_ok_length (m : BasicModel) (feats : List TensorShape) (idx : Nat)
    (hne : feats ≠ []) (h : checkLoop m feats idx = .ok ()) :
    idx + feats.length ≤ m.output_feature_shape.length := by
  have hlt : feats.length - 1 < feats.length := by
    cases feats with
    | nil => exact absurd rfl hne
    | cons a b => simp
  have hget : feats.get? (feats.length - 1) = some (feats.get ⟨feats.length - 1, hlt⟩) :=
    List.get?_eq_get hlt
  have h2 := (checkLoop_ok_get m feats idx h (feats.length - 1) _ hget).2
  have h3 : idx + (feats.length - 1) < m.output_feature_shape.length := by
    have := List.get?_eq_some.mp h2
    obtain ⟨hb, _⟩ := this
    exact hb
  omega

theorem getIdx_lt {α : Type} (l : List α) (i : Nat) (h : i < l.length) :
    getIdx l i = .ok (l.get ⟨i, h⟩) := by
  rw [getIdx, List.get?_eq_get h]

theorem checkLoop_inbounds (m : BasicModel) :
    ∀ (feats : List TensorShape) (idx : Nat) (e : PyErr),
      idx + feats.length ≤ m.out_channels.length →
      idx + feats.length ≤ m.output_feature_shape.length →
      checkLoop m feats idx = .error e → e = .shapeAssert := by
  intro feats
  induction feats with
  | nil => intro idx e h1 h2 h; exact Except.noConfusion h
  | cons g rest ih =>
    intro idx e h1 h2 h
    simp only [List.length_cons] at h1 h2
    rw [checkLoop] at h
    cases hcf : checkFeature m idx g with
    | error e2 =>
      simp only [hcf] at h
      injection h with h3
      subst h3
      rw [checkFeature] at hcf
      rw [getIdx_lt m.out_channels idx (by omega)] at hcf
      rw [getIdx_lt m.output_feature_shape idx (by omega)] at hcf
      simp only at hcf
      by_cases heq : (g.channels, g.height, g.width) =
          (m.out_channels.get ⟨idx, by omega⟩,
           (m.output_feature_shape.get ⟨idx, by omega⟩).1,
           (m.output_feature_shape.get ⟨idx, by omega⟩).2)
      · rw [if_pos heq] at hcf; exact Except.noConfusion hcf
      · rw [if_neg heq] at hcf
        injection hcf with h4
        rw [← h4]
    | ok u =>
      simp only [hcf] at h
      exact ih (idx + 1) e (by omega) (by omega) h

theorem forward_error_cases (m : BasicModel) (x : TensorShape) (e : PyErr)
    (h : forward m x = .error e) :
    runLayers m.layers x = .error e ∨
    (∃ feats, runLayers m.layers x = .ok feats ∧ checkLoop m feats 0 = .error e) ∨
    (∃ feats, runLayers m.layers x = .ok feats ∧ checkLoop m feats 0 = .ok () ∧
      e = .countAssert ∧ feats.length ≠ m.output_feature_shape.length) := by
  rw [forward] at h
  cases hrun : runLayers m.layers x with
  | error e2 =>
    simp only [hrun] at h
    injection h with h2
    subst h2
    exact Or.inl rfl
  | ok feats =>
    simp only [hrun] at h
    cases hchk : checkLoop m feats 0 with
    | error e2 =>
      simp only [hchk] at h
      injection h with h2
      subst h2
      exact Or.inr (Or.inl ⟨feats, rfl, hchk⟩)
    | ok u =>
      simp only [hchk] at h
      by_cases hlen : feats.length = m.output_feature_shape.length
      · rw [if_pos hlen] at h
        exact Except.noConfusion h
      · rw [if_neg hlen] at h
        injection h with h2
        refine Or.inr (Or.inr ⟨feats, rfl, by rw [hchk], ?_, hlen⟩)
        rw [← h2]

theorem exists_six_cons {α : Type} (l : List α) (h : 6 ≤ l.length) :
    ∃ a b c d e f r, l = a :: b :: c :: d :: e :: f :: r := by
  rcases l with _ | ⟨a, _ | ⟨b, _ | ⟨c, _ | ⟨d, _ | ⟨e, _ | ⟨f, r⟩⟩⟩⟩⟩⟩
  · simp at h
  · simp at h
  · simp at h
  · simp at h
  · simp at h
  · simp at h
  · exact ⟨a, b, c, d, e, f, r, rfl⟩

theorem mk_cons (c0 c1 c2 c3 c4 c5 : Nat) (rest : List Nat) (ic : Nat)
    (fs : List (Nat × Nat)) :
    mkBasicModel (c0 :: c1 :: c2 :: c3 :: c4 :: c5 :: rest) ic fs =
      .ok { out_channels := c0 :: c1 :: c2 :: c3 :: c4 :: c5 :: rest,
            output_feature_shape := fs,
            layers := buildLayers ic c0 c1 c2 c3 c4 c5 } := rfl

theorem mk_short (oc : List Nat) (ic : Nat) (fs : List (Nat × Nat))
    (h : oc.length < 6) : mkBasicModel oc ic fs = .error .indexError := by
  rcases oc with _ | ⟨a, _ | ⟨b, _ | ⟨c, _ | ⟨d, _ | ⟨e, _ | ⟨f, r⟩⟩⟩⟩⟩⟩
  · rfl
  · rfl
  · rfl
  · rfl
  · rfl
  · rfl
  · simp at h; omega

theorem mk_ok_fields (oc : List Nat) (ic : Nat) (fs : List (Nat × Nat))
    (m : BasicModel) (h : mkBasicModel oc ic fs = .ok m) :
    m.out_channels = oc ∧ m.output_feature_shape = fs ∧ m.layers.length = 6 := by
  by_cases hlen : 6 ≤ oc.length
  · obtain ⟨a, b, c, d, e, f, r, rfl⟩ := exists_six_cons oc hlen
    rw [mk_cons] at h
    injection h with h2
    subst h2
    exact ⟨rfl, rfl, rfl⟩
  · rw [mk_short oc ic fs (by omega)] at h
    exact Except.noConfusion h

theorem Op.apply_ok_batch (op : Op) (t u : TensorShape)
    (h : Op.apply op t = .ok u) : u.batch = t.batch := by
  cases op with
  | conv inC outC k p s =>
    simp only [Op.apply] at h
    by_cases hc : t.channels = inC
    · rw [if_pos hc] at h
      by_cases hk : k ≤ t.height + 2 * p ∧ k ≤ t.width + 2 * p
      · rw [if_pos hk] at h
        injection h with h2
        rw [← h2]
      · rw [if_neg hk] at h; exact Except.noConfusion h
    · rw [if_neg hc] at h; exact Except.noConfusion h
  | relu =>
    simp only [Op.apply] at h
    injection h with h2
    rw [← h2]
  | maxpool k s =>
    simp only [Op.apply] at h
    by_cases hk : k ≤ t.height ∧ k ≤ t.width
    · rw [if_pos hk] at h
      injection h with h2
      rw [← h2]
    · rw [if_neg hk] at h; exact Except.noConfusion h

theorem runLayer_ok_batch (l : List Op) :
    ∀ (t u : TensorShape), runLayer l t = .ok u → u.batch = t.batch := by
  induction l with
  | nil =>
    intro t u h
    injection h with h2
    rw [h2]
  | cons op rest ih =>
    intro t u h
    rw [runLayer] at h
    cases happ : Op.apply op t with
    | error e => simp only [happ] at h; exact Except.noConfusion h
    | ok t2 =>
      simp only [happ] at h
      rw [ih t2 u h]
      exact Op.apply_ok_batch op t t2 happ

theorem runLayers_ok_batch (ls : List (List Op)) :
    ∀ (t : TensorShape) (feats : List TensorShape), runLayers ls t = .ok feats →
      ∀ f, f ∈ feats → f.batch = t.batch := by
  induction ls with
  | nil =>
    intro t feats h f hf
    injection h with h2
    subst h2
    exact absurd hf (List.not_mem_nil f)
  | cons l rest ih =>
    intro t feats h f hf
    rw [runLayers] at h
    cases hl : runLayer l t with
    | error e => simp only [hl] at h; exact Except.noConfusion h
    | ok t2 =>
      simp only [hl] at h
      cases hr : runLayers rest t2 with
      | error e => simp only [hr] at h; exact Except.noConfusion h
      | ok feats2 =>
        simp only [hr] at h
        injection h with h2
        subst h2
        have hb2 : t2.batch = t.batch := runLayer_ok_batch l t t2 hl
        rcases List.mem_cons.mp hf with hf1 | hf2
        · rw [hf1, hb2]
        · rw [ih t2 feats2 hr f hf2, hb2]

theorem Op.apply_batch (op : Op) (t : TensorShape) (bb : Nat) :
    Op.apply op ⟨bb, t.channels, t.height, t.width⟩ =
      (Op.apply op t).map (fun u => ⟨bb, u.channels, u.height, u.width⟩) := by
  obtain ⟨tb, tc, th, tw⟩ := t
  cases op with
  | conv inC outC k p s =>
    simp only [Op.apply]
    by_cases hc : tc = inC
    · simp only [hc, if_pos rfl]
      by_cases hk : k ≤ th + 2 * p ∧ k ≤ tw + 2 * p
      · rw [if_pos hk, if_pos hk]
        rfl
      · rw [if_neg hk, if_neg hk]
        rfl
    · rw [if_neg hc, if_neg hc]
      rfl
  | relu => rfl
  | maxpool k s =>
    simp only [Op.apply]
    by_cases hk : k ≤ th ∧ k ≤ tw
    · rw [if_pos hk, if_pos hk]
      rfl
    · rw [if_neg hk, if_neg hk]
      rfl

theorem runLayer_batch (l : List Op) :
    ∀ (t : TensorShape) (bb : Nat),
      runLayer l ⟨bb, t.channels, t.height, t.width⟩ =
        (runLayer l t).map (fun u => ⟨bb, u.channels, u.height, u.width⟩) := by
  induction l with
  | nil => intro t bb; rfl
  | cons op rest ih =>
    intro t bb
    rw [runLayer, runLayer, Op.apply_batch]
    cases happ : Op.apply op t with
    | error e => rfl
    | ok t2 =>
      simp only [Except.map]
      exact ih t2 bb

theorem runLayers_batch (ls : List (List Op)) :
    ∀ (t : TensorShape) (bb : Nat),
      runLayers ls ⟨bb, t.channels, t.height, t.width⟩ =
        (runLayers ls t).map (List.map (fun u => ⟨bb, u.channels, u.height, u.width⟩)) := by
  induction ls with
  | nil => intro t bb; rfl
  | cons l rest ih =>
    intro t bb
    rw [runLayers, runLayers, runLayer_batch]
    cases hl : runLayer l t with
    | error e => rfl
    | ok t2 =>
      simp only [Except.map]
      rw [ih t2 bb]
      cases hr : runLayers rest t2 with
      | error e => rfl
      | ok feats => rfl

theorem checkFeature_batch (m : BasicModel) (idx : Nat) (f : TensorShape) (bb : Nat) :
    checkFeature m idx ⟨bb, f.channels, f.height, f.width⟩ = checkFeature m idx f := rfl

theorem checkLoop_batch (m : BasicModel) :
    ∀ (feats : List TensorShape) (idx : Nat) (bb : Nat),
      checkLoop m (feats.map (fun u => ⟨bb, u.channels, u.height, u.width⟩)) idx =
        checkLoop m feats idx := by
  intro feats
  induction feats with
  | nil => intro idx bb; rfl
  | cons g rest ih =>
    intro idx bb
    simp only [List.map_cons]
    rw [checkLoop, checkLoop, checkFeature_batch]
    cases hcf : checkFeature m idx g with
    | error e => rfl
    | ok u => exact ih (idx + 1) bb

theorem forward_batch (m : BasicModel) (t : TensorShape) (bb : Nat) :
    forward m ⟨bb, t.channels, t.height, t.width⟩ =
      (forward m t).map (List.map (fun u => ⟨bb, u.channels, u.height, u.width⟩)) := by
  rw [forward, forward, runLayers_batch]
  cases hrun : runLayers m.layers t with
  | error e => rfl
  | ok feats =>
    simp only [Except.map]
    rw [checkLoop_batch]
    cases hchk : checkLoop m feats 0 with
    | error e => rfl
    | ok u =>
      simp only [List.length_map]
      by_cases hlen : feats.length = m.output_feature_shape.length
      · rw [if_pos hlen, if_pos hlen]
      · rw [if_neg hlen, if_neg hlen]

theorem checkLoopSt_eq (s : BasicModel) :
    ∀ (feats : List TensorShape) (idx : Nat),
      checkLoopSt s feats idx = (checkLoop s feats idx, s) := by
  intro feats
  induction feats with
  | nil => intro idx; rfl
  | cons g rest ih =>
    intro idx
    rw [checkLoopSt, checkLoop]
    cases hcf : checkFeature s idx g with
    | error e => rfl
    | ok u => exact ih (idx + 1)

/-! Claim theorems. -/

/-- C2: starting from spatial size 300, the integer output-size arithmetic of
the configured convolutions (kernel 3, padding 1 except the final stage-6
convolution with padding 0, strides as configured) and the 2 by 2 stride-2
max pools yields per-stage spatial sizes 38, 19, 10, 5, 3, 1, for any
channel configuration; height and width follow the same formula, so the
stage sizes are 38x38, 19x19, 10x10, 5x5, 3x3 and 1x1. -/
theorem claim_C2 (ic c0 c1 c2 c3 c4 c5 : Nat) :
    stageSpatials (buildLayers ic c0 c1 c2 c3 c4 c5) 300 = [38, 19, 10, 5, 3, 1] := by
  simp [stageSpatials, layerSpatial, buildLayers, layer_1, layer_2, layer_3,
    layer_4, layer_5, layer_6, Op.spatial]

/-- C1 counterexample: the claim quantifies over every configuration, but a
configuration whose output_feature_sizes disagree with the produced sizes
makes forward raise the shape assertion instead of returning six tensors. -/
theorem claim_C1_counterexample :
    runOn [32, 32, 32, 32, 32, 32] 1
      [(1, 1), (1, 1), (1, 1), (1, 1), (1, 1), (1, 1)] ⟨1, 1, 300, 300⟩ =
      .error .shapeAssert := by
  decide

theorem conv_apply_ok (inC outC k p s b h w : Nat)
    (hh : k ≤ h + 2 * p) (hw2 : k ≤ w + 2 * p) :
    Op.apply (.conv inC outC k p s) ⟨b, inC, h, w⟩ =
      .ok ⟨b, outC, (h + 2 * p - k) / s + 1, (w + 2 * p - k) / s + 1⟩ := by
  rw [Op.apply]
  rw [if_pos rfl, if_pos ⟨hh, hw2⟩]

theorem maxpool_apply_ok (k s b c h w : Nat) (hh : k ≤ h) (hw2 : k ≤ w) :
    Op.apply (.maxpool k s) ⟨b, c, h, w⟩ =
      .ok ⟨b, c, (h - k) / s + 1, (w - k) / s + 1⟩ := by
  rw [Op.apply]
  rw [if_pos ⟨hh, hw2⟩]

theorem runLayer_step (op : Op) (rest : List Op) (t t2 : TensorShape)
    (h : Op.apply op t = .ok t2) : runLayer (op :: rest) t = runLayer rest t2 := by
  rw [runLayer, h]

theorem runLayers_step (l : List Op) (ls : List (List Op)) (t t2 : TensorShape)
    (feats : List TensorShape) (h : runLayer l t = .ok t2)
    (h2 : runLayers ls t2 = .ok feats) :
    runLayers (l :: ls) t = .ok (t2 :: feats) := by
  rw [runLayers, h]
  simp only [h2]

theorem runLayer_1_std (b ic c0 : Nat) :
    runLayer (layer_1 ic c0) ⟨b, ic, 300, 300⟩ = .ok ⟨b, c0, 38, 38⟩ := by
  rw [layer_1]
  rw [runLayer_step _ _ _ ⟨b, 32, 300, 300⟩ (conv_apply_ok ic 32 3 1 1 b 300 300 (by decide) (by decide))]
  rw [runLayer_step Op.relu _ ⟨b, 32, 300, 300⟩ ⟨b, 32, 300, 300⟩ rfl]
  rw [runLayer_step _ _ _ ⟨b, 32, 150, 150⟩ (maxpool_apply_ok 2 2 b 32 300 300 (by decide) (by decide))]
  rw [runLayer_step _ _ _ ⟨b, 64, 150, 150⟩ (conv_apply_ok 32 64 3 1 1 b 150 150 (by decide) (by decide))]
  rw [runLayer_step Op.relu _ ⟨b, 64, 150, 150⟩ ⟨b, 64, 150, 150⟩ rfl]
  rw [runLayer_step _ _ _ ⟨b, 64, 75, 75⟩ (maxpool_apply_ok 2 2 b 64 150 150 (by decide) (by decide))]
  rw [runLayer_step _ _ _ ⟨b, 64, 75, 75⟩ (conv_apply_ok 64 64 3 1 1 b 75 75 (by decide) (by decide))]
  rw [runLayer_step Op.relu _ ⟨b, 64, 75, 75⟩ ⟨b, 64, 75, 75⟩ rfl]
  rw [runLayer_step _ _ _ ⟨b, c0, 38, 38⟩ (conv_apply_ok 64 c0 3 1 2 b 75 75 (by decide) (by decide))]
  rw [runLayer_step Op.relu _ ⟨b, c0, 38, 38⟩ ⟨b, c0, 38, 38⟩ rfl]
  rfl

theorem runLayer_2_std (b c0 c1 : Nat) :
    runLayer (layer_2 c0 c1) ⟨b, c0, 38, 38⟩ = .ok ⟨b, c1, 19, 19⟩ := by
  rw [layer_2]
  rw [runLayer_step _ _ _ ⟨b, 128, 38, 38⟩ (conv_apply_ok c0 128 3 1 1 b 38 38 (by decide) (by decide))]
  rw [runLayer_step Op.relu _ ⟨b, 128, 38, 38⟩ ⟨b, 128, 38, 38⟩ rfl]
  rw [runLayer_step _ _ _ ⟨b, c1, 19, 19⟩ (conv_apply_ok 128 c1 3 1 2 b 38 38 (by decide) (by decide))]
  rw [runLayer_step Op.relu _ ⟨b, c1, 19, 19⟩ ⟨b, c1, 19, 19⟩ rfl]
  rfl

theorem runLayer_3_std (b c1 c2 : Nat) :
    runLayer (layer_3 c1 c2) ⟨b, c1, 19, 19⟩ = .ok ⟨b, c2, 10, 10⟩ := by
  rw [layer_3]
  rw [runLayer_step _ _ _ ⟨b, 256, 19, 19⟩ (conv_apply_ok c1 256 3 1 1 b 19 19 (by decide) (by decide))]
  rw [runLayer_step Op.relu _ ⟨b, 256, 19, 19⟩ ⟨b, 256, 19, 19⟩ rfl]
  rw [runLayer_step _ _ _ ⟨b, c2, 10, 10⟩ (conv_apply_ok 256 c2 3 1 2 b 19 19 (by decide) (by decide))]
  rw [runLayer_step Op.relu _ ⟨b, c2, 10, 10⟩ ⟨b, c2, 10, 10⟩ rfl]
  rfl

theorem runLayer_4_std (b c2 c3 : Nat) :
    runLayer (layer_4 c2 c3) ⟨b, c2, 10, 10⟩ = .ok ⟨b, c3, 5, 5⟩ := by
  rw [layer_4]
  rw [runLayer_step _ _ _ ⟨b, 128, 10, 10⟩ (conv_apply_ok c2 128 3 1 1 b 10 10 (by decide) (by decide))]
  rw [runLayer_step Op.relu _ ⟨b, 128, 10, 10⟩ ⟨b, 128, 10, 10⟩ rfl]
  rw [runLayer_step _ _ _ ⟨b, c3, 5, 5⟩ (conv_apply_ok 128 c3 3 1 2 b 10 10 (by decide) (by decide))]
  rw [runLayer_step Op.relu _ ⟨b, c3, 5, 5⟩ ⟨b, c3, 5, 5⟩ rfl]
  rfl

theorem runLayer_5_std (b c3 c4 : Nat) :
    runLayer (layer_5 c3 c4) ⟨b, c3, 5, 5⟩ = .ok ⟨b, c4, 3, 3⟩ := by
  rw [layer_5]
  rw [runLayer_step _ _ _ ⟨b, 128, 5, 5⟩ (conv_apply_ok c3 128 3 1 1 b 5 5 (by decide) (by decide))]
  rw [runLayer_step Op.relu _ ⟨b, 128, 5, 5⟩ ⟨b, 128, 5, 5⟩ rfl]
  rw [runLayer_step _ _ _ ⟨b, c4, 3, 3⟩ (conv_apply_ok 128 c4 3 1 2 b 5 5 (by decide) (by decide))]
  rw [runLayer_step Op.relu _ ⟨b, c4, 3, 3⟩ ⟨b, c4, 3, 3⟩ rfl]
  rfl

theorem runLayer_6_std (b c4 c5 : Nat) :
    runLayer (layer_6 c4 c5) ⟨b, c4, 3, 3⟩ = .ok ⟨b, c5, 1, 1⟩ := by
  rw [layer_6]
  rw [runLayer_step _ _ _ ⟨b, 128, 3, 3⟩ (conv_apply_ok c4 128 3 1 1 b 3 3 (by decide) (by decide))]
  rw [runLayer_step Op.relu _ ⟨b, 128, 3, 3⟩ ⟨b, 128, 3, 3⟩ rfl]
  rw [runLayer_step _ _ _ ⟨b, c5, 1, 1⟩ (conv_apply_ok 128 c5 3 0 1 b 3 3 (by decide) (by decide))]
  rw [runLayer_step Op.relu _ ⟨b, c5, 1, 1⟩ ⟨b, c5, 1, 1⟩ rfl]
  rfl

theorem runLayers_std (b ic c0 c1 c2 c3 c4 c5 : Nat) :
    runLayers (buildLayers ic c0 c1 c2 c3 c4 c5) ⟨b, ic, 300, 300⟩ =
      .ok [⟨b, c0, 38, 38⟩, ⟨b, c1, 19, 19⟩, ⟨b, c2, 10, 10⟩,
           ⟨b, c3, 5, 5⟩, ⟨b, c4, 3, 3⟩, ⟨b, c5, 1, 1⟩] := by
  rw [buildLayers]
  exact runLayers_step _ _ _ _ _ (runLayer_1_std b ic c0)
    (runLayers_step _ _ _ _ _ (runLayer_2_std b c0 c1)
      (runLayers_step _ _ _ _ _ (runLayer_3_std b c1 c2)
        (runLayers_step _ _ _ _ _ (runLayer_4_std b c2 c3)
          (runLayers_step _ _ _ _ _ (runLayer_5_std b c3 c4)
            (runLayers_step _ _ _ _ _ (runLayer_6_std b c4 c5) rfl)))))

theorem checkFeature_of (m : BasicModel) (idx : Nat) (f : TensorShape) (oc : Nat)
    (hw : Nat × Nat) (h1 : getIdx m.out_channels idx = .ok oc)
    (h2 : getIdx m.output_feature_shape idx = .ok hw)
    (h3 : (f.channels, f.height, f.width) = (oc, hw.1, hw.2)) :
    checkFeature m idx f = .ok () := by
  rw [checkFeature, h1]
  simp only [h2]
  rw [if_pos h3]

theorem checkLoop_step (m : BasicModel) (f : TensorShape) (rest : List TensorShape)
    (idx : Nat) (h : checkFeature m idx f = .ok ()) :
    checkLoop m (f :: rest) idx = checkLoop m rest (idx + 1) := by
  rw [checkLoop, h]

/-- C1 amended: for every configuration whose output_feature_sizes are the
documented standard sizes and whose output_channels has at least six
entries, forward on any rank-4 input of shape (batch, image_channels, 300,
300) returns exactly six tensors whose channel, height and width dimensions
are the output_channels entry of the stage and the standard sizes. -/
theorem claim_C1_amended (b ic c0 c1 c2 c3 c4 c5 : Nat) (rest : List Nat) :
    runOn (c0 :: c1 :: c2 :: c3 :: c4 :: c5 :: rest) ic stdSizes ⟨b, ic, 300, 300⟩ =
      .ok [⟨b, c0, 38, 38⟩, ⟨b, c1, 19, 19⟩, ⟨b, c2, 10, 10⟩,
           ⟨b, c3, 5, 5⟩, ⟨b, c4, 3, 3⟩, ⟨b, c5, 1, 1⟩] := by
  rw [runOn]
  simp only [mk_cons]
  set m : BasicModel :=
    { out_channels := c0 :: c1 :: c2 :: c3 :: c4 :: c5 :: rest,
      output_feature_shape := stdSizes,
      layers := buildLayers ic c0 c1 c2 c3 c4 c5 } with hmdef
  have hrun : runLayers m.layers ⟨b, ic, 300, 300⟩ =
      .ok [⟨b, c0, 38, 38⟩, ⟨b, c1, 19, 19⟩, ⟨b, c2, 10, 10⟩,
           ⟨b, c3, 5, 5⟩, ⟨b, c4, 3, 3⟩, ⟨b, c5, 1, 1⟩] :=
    runLayers_std b ic c0 c1 c2 c3 c4 c5
  have hchk : checkLoop m
      [⟨b, c0, 38, 38⟩, ⟨b, c1, 19, 19⟩, ⟨b, c2, 10, 10⟩,
       ⟨b, c3, 5, 5⟩, ⟨b, c4, 3, 3⟩, ⟨b, c5, 1, 1⟩] 0 = .ok () := by
    rw [checkLoop_step m _ _ 0 (checkFeature_of m 0 _ c0 (38, 38) rfl rfl rfl)]
    rw [checkLoop_step m _ _ 1 (checkFeature_of m 1 _ c1 (19, 19) rfl rfl rfl)]
    rw [checkLoop_step m _ _ 2 (checkFeature_of m 2 _ c2 (10, 10) rfl rfl rfl)]
    rw [checkLoop_step m _ _ 3 (checkFeature_of m 3 _ c3 (5, 5) rfl rfl rfl)]
    rw [checkLoop_step m _ _ 4 (checkFeature_of m 4 _ c4 (3, 3) rfl rfl rfl)]
    rw [checkLoop_step m _ _ 5 (checkFeature_of m 5 _ c5 (1, 1) rfl rfl rfl)]
    rfl
  rw [forward]
  simp only [hrun, hchk]
  rfl

/-- C3 counterexample: constructing with an empty output_feature_sizes list
succeeds (the constructor never indexes it), and forward then raises an
IndexError at output_feature_shape of 0, not an assertion failure, so
assertion failures are not the only error behavior of the forward pass. -/
theorem claim_C3_counterexample :
    runOn [32, 32, 32, 32, 32, 32] 3 [] ⟨1, 3, 300, 300⟩ = .error .indexError := by
  decide

/-- C3 amended: when both configuration lists have at least six entries, the
forward pass either returns, fails one of its two assertions (shape or
count), or propagates a failure raised inside the delegated framework
kernels; in particular it never raises an index error itself. -/
theorem claim_C3_amended (c0 c1 c2 c3 c4 c5 : Nat) (ocr : List Nat) (ic : Nat)
    (f0 f1 f2 f3 f4 f5 : Nat × Nat) (fsr : List (Nat × Nat)) (x : TensorShape) :
    (∃ feats, runOn (c0 :: c1 :: c2 :: c3 :: c4 :: c5 :: ocr) ic
        (f0 :: f1 :: f2 :: f3 :: f4 :: f5 :: fsr) x = .ok feats) ∨
      runOn (c0 :: c1 :: c2 :: c3 :: c4 :: c5 :: ocr) ic
        (f0 :: f1 :: f2 :: f3 :: f4 :: f5 :: fsr) x = .error .shapeAssert ∨
      runOn (c0 :: c1 :: c2 :: c3 :: c4 :: c5 :: ocr) ic
        (f0 :: f1 :: f2 :: f3 :: f4 :: f5 :: fsr) x = .error .countAssert ∨
      runOn (c0 :: c1 :: c2 :: c3 :: c4 :: c5 :: ocr) ic
        (f0 :: f1 :: f2 :: f3 :: f4 :: f5 :: fsr) x = .error .runtimeError := by
  rw [runOn]
  simp only [mk_cons]
  set m : BasicModel :=
    { out_channels := c0 :: c1 :: c2 :: c3 :: c4 :: c5 :: ocr,
      output_feature_shape := f0 :: f1 :: f2 :: f3 :: f4 :: f5 :: fsr,
      layers := buildLayers ic c0 c1 c2 c3 c4 c5 } with hm
  cases hres : forward m x with
  | ok feats => exact Or.inl ⟨feats, rfl⟩
  | error e =>
    rcases forward_error_cases m x e hres with hrl | ⟨feats, hok, hchk⟩ | ⟨feats, hok, hchk, he, hlen⟩
    · have := runLayers_error m.layers x e hrl
      subst this
      exact Or.inr (Or.inr (Or.inr rfl))
    · have hflen : feats.length = 6 := by
        have h1 := runLayers_length m.layers x feats hok
        rw [h1, hm]
        simp [buildLayers]
      have hsh : e = .shapeAssert := by
        refine checkLoop_inbounds m feats 0 e ?_ ?_ hchk
        · rw [hflen, hm]
          simp [List.length_cons]
        · rw [hflen, hm]
          simp [List.length_cons]
      subst hsh
      exact Or.inr (Or.inl rfl)
    · subst he
      exact Or.inr (Or.inr (Or.inl rfl))

/-- C4: whenever the forward pass returns a list of feature maps, every
returned feature map satisfies the configured expectation: its channel count
is the corresponding out_channels entry and its height and width are the
corresponding output_feature_shape entry; equivalently, no tuple is ever
returned while some produced feature map mismatches the configuration. -/
theorem claim_C4 (m : BasicModel) (x : TensorShape) (feats : List TensorShape)
    (h : forward m x = .ok feats) (i : Nat) (f : TensorShape)
    (hf : feats.get? i = some f) :
    m.out_channels.get? i = some f.channels ∧
      m.output_feature_shape.get? i = some (f.height, f.width) := by
  have hp := forward_ok_parts m x feats h
  have h2 := checkLoop_ok_get m feats 0 hp.2.1 i f hf
  simpa using h2

/-- C4 witness: a successful standard run, instantiated at index 0. -/
theorem claim_C4_witness :
    stdModel.out_channels.get? 0 = some 128 ∧
      stdModel.output_feature_shape.get? 0 = some (38, 38) :=
  claim_C4 stdModel ⟨1, 3, 300, 300⟩ stdFeats (by decide) 0 ⟨1, 128, 38, 38⟩ (by decide)

/-- C5: whenever the forward pass returns, the number of returned feature
maps equals the length of the stored output_feature_shape list, and since
the model built by the constructor has exactly six stages, both that number
and the configured list length are exactly six. -/
theorem claim_C5 (oc : List Nat) (ic : Nat) (fs : List (Nat × Nat)) (m : BasicModel)
    (x : TensorShape) (feats : List TensorShape)
    (hm : mkBasicModel oc ic fs = .ok m) (h : forward m x = .ok feats) :
    feats.length = m.output_feature_shape.length ∧ feats.length = 6 ∧ fs.length = 6 := by
  obtain ⟨hoc, hfs, hlay⟩ := mk_ok_fields oc ic fs m hm
  have hp := forward_ok_parts m x feats h
  have hlen : feats.length = m.layers.length := runLayers_length m.layers x feats hp.1
  refine ⟨hp.2.2, ?_, ?_⟩
  · rw [hlen, hlay]
  · rw [← hfs, ← hp.2.2, hlen, hlay]

/-- C5 witness: the standard configuration and a successful standard run. -/
theorem claim_C5_witness :
    stdFeats.length = stdModel.output_feature_shape.length ∧
      stdFeats.length = 6 ∧ stdSizes.length = 6 :=
  claim_C5 [128, 256, 128, 128, 64, 64] 3 stdSizes stdModel ⟨1, 3, 300, 300⟩ stdFeats
    (by decide) (by decide)

theorem runLayers_cons_ok (l : List Op) (ls : List (List Op)) (t : TensorShape)
    (feats : List TensorShape) (h : runLayers (l :: ls) t = .ok feats) :
    ∃ f rest2, runLayer l t = .ok f ∧ runLayers ls f = .ok rest2 ∧ feats = f :: rest2 := by
  rw [runLayers] at h
  cases hl : runLayer l t with
  | error e => simp only [hl] at h; exact Except.noConfusion h
  | ok t2 =>
    simp only [hl] at h
    cases hr : runLayers ls t2 with
    | error e => simp only [hr] at h; exact Except.noConfusion h
    | ok feats2 =>
      simp only [hr] at h
      injection h with h2
      exact ⟨t2, feats2, rfl, hr, h2.symm⟩

/-- C6: the forward pass is a straight sequential composition: whenever it
returns, the returned features are exactly six, the first is stage 1 applied
to the input, and each later feature is the next stage applied to the
previous feature, in stage order. -/
theorem claim_C6 (c0 c1 c2 c3 c4 c5 : Nat) (rest : List Nat) (ic : Nat)
    (fs : List (Nat × Nat)) (m : BasicModel) (x : TensorShape)
    (feats : List TensorShape)
    (hm : mkBasicModel (c0 :: c1 :: c2 :: c3 :: c4 :: c5 :: rest) ic fs = .ok m)
    (hf : forward m x = .ok feats) :
    ∃ f1 f2 f3 f4 f5 f6, feats = [f1, f2, f3, f4, f5, f6] ∧
      runLayer (layer_1 ic c0) x = .ok f1 ∧
      runLayer (layer_2 c0 c1) f1 = .ok f2 ∧
      runLayer (layer_3 c1 c2) f2 = .ok f3 ∧
      runLayer (layer_4 c2 c3) f3 = .ok f4 ∧
      runLayer (layer_5 c3 c4) f4 = .ok f5 ∧
      runLayer (layer_6 c4 c5) f5 = .ok f6 := by
  rw [mk_cons] at hm
  injection hm with hm2
  subst hm2
  have hrun := (forward_ok_parts _ x feats hf).1
  simp only [buildLayers] at hrun
  obtain ⟨f1, r1, hl1, hr1, he1⟩ := runLayers_cons_ok _ _ _ _ hrun
  obtain ⟨f2, r2, hl2, hr2, he2⟩ := runLayers_cons_ok _ _ _ _ hr1
  obtain ⟨f3, r3, hl3, hr3, he3⟩ := runLayers_cons_ok _ _ _ _ hr2
  obtain ⟨f4, r4, hl4, hr4, he4⟩ := runLayers_cons_ok _ _ _ _ hr3
  obtain ⟨f5, r5, hl5, hr5, he5⟩ := runLayers_cons_ok _ _ _ _ hr4
  obtain ⟨f6, r6, hl6, hr6, he6⟩ := runLayers_cons_ok _ _ _ _ hr5
  have hr0 : r6 = [] := by
    rw [runLayers] at hr6
    injection hr6 with h2
    exact h2.symm
  subst hr0
  subst he6
  subst he5
  subst he4
  subst he3
  subst he2
  subst he1
  exact ⟨f1, f2, f3, f4, f5, f6, rfl, hl1, hl2, hl3, hl4, hl5, hl6⟩

/-- C6 witness: the standard configuration and a successful standard run. -/
theorem claim_C6_witness :
    ∃ f1 f2 f3 f4 f5 f6, stdFeats = [f1, f2, f3, f4, f5, f6] ∧
      runLayer (layer_1 3 128) ⟨1, 3, 300, 300⟩ = .ok f1 ∧
      runLayer (layer_2 128 256) f1 = .ok f2 ∧
      runLayer (layer_3 256 128) f2 = .ok f3 ∧
      runLayer (layer_4 128 128) f3 = .ok f4 ∧
      runLayer (layer_5 128 64) f4 = .ok f5 ∧
      runLayer (layer_6 64 64) f5 = .ok f6 :=
  claim_C6 128 256 128 128 64 64 [] 3 stdSizes stdModel ⟨1, 3, 300, 300⟩ stdFeats
    (by decide) (by decide)

/-- C7: construction wires the stages from the configuration list: the last
convolution of each stage i has out_channels equal to output_channels of i,
and the first convolution of each later stage takes its in_channels from the
previous output_channels entry (the first stage takes image_channels), so
consecutive stages are channel-compatible and each stage outputs its
configured channel count. -/
theorem claim_C7 (c0 c1 c2 c3 c4 c5 : Nat) (rest : List Nat) (ic : Nat)
    (fs : List (Nat × Nat)) (m : BasicModel)
    (hm : mkBasicModel (c0 :: c1 :: c2 :: c3 :: c4 :: c5 :: rest) ic fs = .ok m) :
    m.layers.map lastConvOut =
      [some c0, some c1, some c2, some c3, some c4, some c5] ∧
    m.layers.map firstConvIn =
      [some ic, some c0, some c1, some c2, some c3, some c4] := by
  rw [mk_cons] at hm
  injection hm with hm2
  subst hm2
  exact ⟨rfl, rfl⟩

/-- C7 witness: the wiring at the standard configuration. -/
theorem claim_C7_witness :
    stdModel.layers.map lastConvOut =
      [some 128, some 256, some 128, some 128, some 64, some 64] ∧
    stdModel.layers.map firstConvIn =
      [some 3, some 128, some 256, some 128, some 128, some 64] :=
  claim_C7 128 256 128 128 64 64 [] 3 stdSizes stdModel (by decide)

/-- C8 counterexample: with output_feature_sizes of length 1 whose single
entry is wrong, the shape-check loop fails the shape assertion at index 0
rather than failing with an out-of-bounds access, so a too-short list does
not always fail with an out-of-bounds access. -/
theorem claim_C8_counterexample :
    runOn [128, 256, 128, 128, 64, 64] 3 [(999, 999)] ⟨1, 3, 300, 300⟩ =
      .error .shapeAssert := by
  decide

/-- C8 amended: construction indexes output_channels at 0 through 5 and the
shape-check loop indexes both stored lists at 0 through 5; when both lists
have at least six entries every access is in bounds (construction succeeds
and forward never raises an index error); when output_channels is shorter
construction fails with an out-of-bounds access; when output_feature_sizes
is shorter the shape-check loop stops with an out-of-bounds access or a
shape-assertion failure, in either case before the count assertion is
reached. -/
theorem claim_C8_amended (oc : List Nat) (ic : Nat) (fs : List (Nat × Nat)) :
    (oc.length < 6 → mkBasicModel oc ic fs = .error .indexError) ∧
    (6 ≤ oc.length → ∃ m, mkBasicModel oc ic fs = .ok m ∧
      ((6 ≤ fs.length → ∀ x, notIndexError (forward m x) = true) ∧
       (fs.length < 6 → ∀ x, stopsBeforeCountAssert (forward m x) = true))) := by
  constructor
  · intro h
    exact mk_short oc ic fs h
  · intro hlen
    obtain ⟨a, b, c, d, e, f, r, rfl⟩ := exists_six_cons oc hlen
    refine ⟨_, mk_cons a b c d e f r ic fs, ?_, ?_⟩
    · intro hfs x
      set m : BasicModel :=
        { out_channels := a :: b :: c :: d :: e :: f :: r,
          output_feature_shape := fs,
          layers := buildLayers ic a b c d e f } with hmdef
      cases hres : forward m x with
      | ok feats => rfl
      | error e2 =>
        rcases forward_error_cases m x e2 hres with hrl | ⟨feats, hok, hchk⟩ |
          ⟨feats, hok, hchk, he, hl2⟩
        · have h3 := runLayers_error m.layers x e2 hrl
          subst h3
          rfl
        · have hflen : feats.length = 6 := by
            rw [runLayers_length m.layers x feats hok, hmdef]
            simp [buildLayers]
          have hsh : e2 = .shapeAssert := by
            refine checkLoop_inbounds m feats 0 e2 ?_ ?_ hchk
            · rw [hflen, hmdef]
              simp [List.length_cons]
            · rw [hflen, hmdef]
              simpa using hfs
          subst hsh
          rfl
        · subst he
          rfl
    · intro hfs x
      set m : BasicModel :=
        { out_channels := a :: b :: c :: d :: e :: f :: r,
          output_feature_shape := fs,
          layers := buildLayers ic a b c d e f } with hmdef
      cases hres : forward m x with
      | ok feats =>
        exfalso
        have hp := forward_ok_parts m x feats hres
        have hflen : feats.length = 6 := by
          rw [runLayers_length m.layers x feats hp.1, hmdef]
          simp [buildLayers]
        have hne : feats ≠ [] := by
          intro hc
          rw [hc] at hflen
          exact absurd hflen (by decide)
        have hle := checkLoop_ok_length m feats 0 hne hp.2.1
        rw [hflen] at hle
        have : m.output_feature_shape.length = fs.length := by rw [hmdef]
        omega
      | error e2 =>
        rcases forward_error_cases m x e2 hres with hrl | ⟨feats, hok, hchk⟩ |
          ⟨feats, hok, hchk, he, hl2⟩
        · have h3 := runLayers_error m.layers x e2 hrl
          subst h3
          rfl
        · rcases checkLoop_error_kinds m feats 0 e2 hchk with hsh | hix
          · subst hsh
            rfl
          · subst hix
            rfl
        · exfalso
          have hflen : feats.length = 6 := by
            rw [runLayers_length m.layers x feats hok, hmdef]
            simp [buildLayers]
          have hne : feats ≠ [] := by
            intro hc
            rw [hc] at hflen
            exact absurd hflen (by decide)
          have hle := checkLoop_ok_length m feats 0 hne hchk
          rw [hflen] at hle
          have : m.output_feature_shape.length = fs.length := by rw [hmdef]
          omega

/-- C8 witness: a two-element output_channels list makes construction fail
with an out-of-bounds access. -/
theorem claim_C8_witness : mkBasicModel [9, 9] 3 [] = .error .indexError :=
  (claim_C8_amended [9, 9] 3 []).1 (by decide)

/-- C9: the shape assertions never inspect the batch dimension: forward on
an input whose batch dimension is replaced gives the same outcome with every
returned feature map rebatched, and every feature map returned by a
successful call carries exactly the batch dimension of the input. -/
theorem claim_C9 (m : BasicModel) (b bb c h w : Nat) :
    forward m ⟨bb, c, h, w⟩ =
      (forward m ⟨b, c, h, w⟩).map
        (List.map (fun u => ⟨bb, u.channels, u.height, u.width⟩)) ∧
    (∀ feats, forward m ⟨b, c, h, w⟩ = .ok feats → ∀ f, f ∈ feats → f.batch = b) := by
  constructor
  · exact forward_batch m ⟨b, c, h, w⟩ bb
  · intro feats hf f hfm
    have hrun := (forward_ok_parts m _ feats hf).1
    exact runLayers_ok_batch m.layers _ feats hrun f hfm

/-- C9 witness: in a successful standard run with batch 1, the first feature
map has batch 1. -/
theorem claim_C9_witness : TensorShape.batch ⟨1, 128, 38, 38⟩ = 1 :=
  (claim_C9 stdModel 1 1 3 300 300).2 stdFeats (by decide) ⟨1, 128, 38, 38⟩ (by decide)

/-- C10: the forward pass never modifies the module state: threading the
module object through every read, the final state equals the initial module
on every path (return or failure), and the result agrees with the pure
forward function. -/
theorem claim_C10 (m : BasicModel) (x : TensorShape) :
    forwardSt m x = (forward m x, m) := by
  rw [forwardSt, forward]
  cases hrun : runLayers m.layers x with
  | error e => simp only [hrun]
  | ok feats =>
    simp only [hrun, checkLoopSt_eq]
    cases hchk : checkLoop m feats 0 with
    | error e => simp only [hchk]
    | ok u =>
      simp only [hchk]
      by_cases hlen : feats.length = m.output_feature_shape.length
      · rw [if_pos hlen, if_pos hlen]
      · rw [if_neg hlen, if_neg hlen]
